import Mathlib

/-!
Verification of `sync_github_to_sheets.py`, a single-run script that fetches
pull-request metadata from the GitHub REST API and writes it to a Google
Sheet, either as one row per PR ("rows" mode) or as per-account counters
("tracker" mode).

Shallow embedding conventions:
* JSON objects become Lean structures; a field obtained with `dict.get`
  (which yields `None` when absent, and the code also treats falsy values
  such as `None` or the empty dict as absent via `or {}` / truthiness
  tests) becomes `Option _`.
* ISO-8601 timestamp strings are abstracted as the instants they denote,
  modelled as `Int`; `dateutil.parser.isoparse` followed by datetime
  comparison becomes integer comparison.  `parse_iso8601` maps a missing
  value to `None` and otherwise returns the parsed instant, so it is the
  identity on this representation.
* Network I/O is replaced by oracles: a response oracle `Nat → HttpResponse`
  gives the server reply to the i-th HTTP request of a pagination loop, and
  `Nat → List GhEvent` / `Nat → List Commit` give the (already paginated)
  issue events and commits of a PR number.  `time.time()` becomes an oracle
  `Nat → Int` indexed by request number, and `time.sleep` is recorded as a
  trace event.
* The unbounded `while` loop of `paginate` is run on fuel; exhausting the
  fuel models non-termination of the loop.
-/

/-- A spreadsheet cell value as produced by the script: a Python string,
int, or `None`.  Timestamps (ISO-8601 strings in the real rows) appear as
their abstracted instants. -/
inductive Cell
  | str (s : String)
  | nat (n : Nat)
  | time (t : Int)
  | none
deriving DecidableEq, Repr

/-- A GitHub user object; `login` is `user.get("login")`. -/
structure GhUser where
  login : Option String
deriving DecidableEq, Repr

/-- A GitHub team object; `slug` is `team.get("slug")`. -/
structure GhTeam where
  slug : Option String
deriving DecidableEq, Repr

/-- An issue event as returned by `/issues/{n}/events`.  Fields the script
reads: `event`, `created_at`, `requested_reviewer`, `requested_team`,
`actor`. -/
structure GhEvent where
  event : String
  created_at : Option Int
  requested_reviewer : Option GhUser
  requested_team : Option GhTeam
  actor : Option GhUser
deriving DecidableEq, Repr

/-- A commit of a PR; `authorDate` is `commit.commit.author.date` with every
step of the `get`/`or {}` chain collapsed into one `Option`. -/
structure Commit where
  authorDate : Option Int
deriving DecidableEq, Repr

/-- The pull-request fields read by the script. -/
structure PullRequest where
  number : Nat
  title : Option String
  user : Option GhUser
  created_at : Option Int
  html_url : Option String
  state : String
  merged_at : Option Int
  closed_at : Option Int
  merged_by : Option GhUser
deriving DecidableEq, Repr

/-- The reviewer strings collected from the `review_requested` events of a
PR (lines 162-171): for each event, the requested reviewer login if that
object is present and its login truthy, else `"team:" ++ slug` if a
requested team with a truthy slug is present. -/
def reviewersRaw (revEvents : List GhEvent) : List String :=
  revEvents.filterMap fun e =>
    match e.requested_reviewer with
    | some u =>
      match u.login with
      | some s => if s = "" then Option.none else some s
      | Option.none => Option.none
    | Option.none =>
      match e.requested_team with
      | some t =>
        match t.slug with
        | some s => if s = "" then Option.none else some ("team:" ++ s)
        | Option.none => Option.none
      | Option.none => Option.none

/-- De-duplication preserving first occurrence, with an accumulator playing
the role of the Python `seen` set (lines 173-174). -/
def dedupFirstAux (seen : List String) : List String → List String
  | [] => []
  | r :: rs =>
    if r ∈ seen then dedupFirstAux seen rs
    else r :: dedupFirstAux (r :: seen) rs

def dedupFirst (l : List String) : List String :=
  dedupFirstAux [] l

/-- Specification-side characterisation of first-occurrence order: keep each
element at its first occurrence, dropping all later duplicates. -/
def firstOccurrences : List String → List String
  | [] => []
  | a :: l => a :: firstOccurrences (l.filter fun b => b ≠ a)
termination_by l => l.length
decreasing_by
  simp only [List.length_cons]
  exact Nat.lt_succ_of_le (List.length_filter_le _ _)

/-- The `review_requested` events of a PR, in API order (line 159). -/
def reviewRequestedEvents (events : List GhEvent) : List GhEvent :=
  events.filter fun e => e.event = "review_requested"

/-- Field `marked_done_at` (line 160): the `created_at` of the first
`review_requested` event, if any. -/
def markedDoneAt (events : List GhEvent) : Option Int :=
  (reviewRequestedEvents events).head?.bind GhEvent.created_at

/-- Field `updates_after_done` (lines 177-185): the number of commits whose author
date is strictly after `marked_done_at`; `0` when there is no
`review_requested` event. -/
def updatesAfterDone (events : List GhEvent) (commits : List Commit) : Nat :=
  match markedDoneAt events with
  | Option.none => 0
  | some md =>
    (commits.filter fun c =>
      match c.authorDate with
      | some t => md < t
      | Option.none => false).length

/-- The deduplicated reviewer list of a PR (lines 162-174). -/
def reviewersUnique (events : List GhEvent) : List String :=
  dedupFirst (reviewersRaw (reviewRequestedEvents events))

/-- The `Reviewers` cell (line 201): comma-joined reviewers, or `None` when
the list is empty. -/
def reviewersCell (events : List GhEvent) : Cell :=
  let u := reviewersUnique events
  if u = [] then Cell.none else Cell.str (String.intercalate ", " u)

/-- An optional string as a cell. -/
def optStr : Option String → Cell
  | some s => Cell.str s
  | Option.none => Cell.none

/-- An optional timestamp as a cell. -/
def optTime : Option Int → Cell
  | some t => Cell.time t
  | Option.none => Cell.none

/-- Field `finalized_by` (line 189): the login of `merged_by` when the PR was
merged, else `None`. -/
def finalizedBy (pr : PullRequest) : Option String :=
  match pr.merged_at with
  | some _ => pr.merged_by.bind GhUser.login
  | Option.none => Option.none

/-- Field `finalized_at` (line 190): `merged_at`, or `closed_at` when the PR state
is `closed`. -/
def finalizedAt (pr : PullRequest) : Option Int :=
  match pr.merged_at with
  | some t => some t
  | Option.none => if pr.state = "closed" then pr.closed_at else Option.none

/-- The row built by `summarize_pr` (lines 195-206), with the per-PR issue
events and commits supplied by oracles keyed on the PR number. -/
def summaryRow (events : Nat → List GhEvent) (commits : Nat → List Commit)
    (pr : PullRequest) : List Cell :=
  let evs := events pr.number
  [ Cell.nat pr.number,
    optStr pr.title,
    optStr (pr.user.bind GhUser.login),
    optTime pr.created_at,
    optTime (markedDoneAt evs),
    reviewersCell evs,
    Cell.nat (updatesAfterDone evs (commits pr.number)),
    optStr (finalizedBy pr),
    optTime (finalizedAt pr),
    optStr pr.html_url ]

-- Helper lemmas about first-occurrence deduplication.

theorem dedupFirstAux_eq (l : List String) :
    ∀ seen, dedupFirstAux seen l =
      firstOccurrences (l.filter fun a => a ∉ seen) := by
  induction l with
  | nil => intro seen; simp [dedupFirstAux, firstOccurrences]
  | cons r rs ih =>
    intro seen
    by_cases hr : r ∈ seen
    · simp only [dedupFirstAux, if_pos hr, List.filter_cons]
      rw [if_neg (by simp [hr])]
      exact ih seen
    · simp only [dedupFirstAux, if_neg hr, List.filter_cons]
      rw [if_pos (by simp [hr])]
      rw [firstOccurrences, ih (r :: seen), List.filter_filter]
      congr 2
      apply List.filter_congr
      intro a _
      by_cases h1 : a = r <;> by_cases h2 : a ∈ seen <;> simp [h1, h2]

theorem dedupFirst_eq_firstOccurrences (l : List String) :
    dedupFirst l = firstOccurrences l := by
  rw [dedupFirst, dedupFirstAux_eq]
  congr 1
  simp

theorem firstOccurrences_mem_of (l : List String) (x : String)
    (h : x ∈ firstOccurrences l) : x ∈ l := by
  induction l using firstOccurrences.induct with
  | case1 => simp [firstOccurrences] at h
  | case2 a l ih =>
    rw [firstOccurrences] at h
    rcases List.mem_cons.mp h with h | h
    · simp [h]
    · have := ih h
      exact List.mem_cons_of_mem _ (List.mem_of_mem_filter this)

theorem firstOccurrences_nodup (l : List String) :
    (firstOccurrences l).Nodup := by
  induction l using firstOccurrences.induct with
  | case1 => simp [firstOccurrences]
  | case2 a l ih =>
    rw [firstOccurrences]
    refine List.nodup_cons.mpr ⟨?_, ih⟩
    intro hmem
    have := firstOccurrences_mem_of _ _ hmem
    simp at this

/-! ## Pagination (`paginate`, lines 91-124)

The HTTP layer is modelled by a response oracle: the i-th `session.get`
issued by one run of `paginate` receives `oracle i`.  The `Link` header is
modelled at the structured level: a list of parts, each carrying the URL
between `<`/`>` and its `rel` value; the code picks the first part whose
`rel` is `next`.  `requests.Response.raise_for_status` raises exactly for
status codes in `[400, 600)`. -/

/-- Query parameters, as an association list (Python dict built literally
by the callers, so keys are distinct). -/
abbrev Params : Type := List (String × String)

/-- Model of `params.setdefault("per_page", 100)` (line 94) on
`dict(params or {})` (line 93). -/
def withPerPageDefault (params : Option Params) : Params :=
  let p := params.getD []
  if p.any fun kv => kv.1 = "per_page" then p else p ++ [("per_page", "100")]

/-- One part of a `Link` header: the URL between angle brackets and the
`rel` attribute. -/
structure LinkPart where
  url : String
  rel : String
deriving DecidableEq, Repr

/-- Extraction of the `rel="next"` URL (lines 113-122): the URL of the
first part whose rel is `next`. -/
def nextUrl (link : List LinkPart) : Option String :=
  (link.find? fun p => p.rel = "next").map LinkPart.url

/-- A JSON response body: either a list of items, or an object whose
optional `items` field holds the list (lines 105-111). -/
inductive Body (α : Type)
  | jsonList (items : List α)
  | jsonObj (items : Option (List α))
deriving DecidableEq, Repr

/-- The items yielded from one body. -/
def Body.yielded {α : Type} : Body α → List α
  | .jsonList l => l
  | .jsonObj o => o.getD []

/-- The response fields `paginate` reads: status code, the
`X-RateLimit-Remaining` header, the `X-RateLimit-Reset` header already
parsed by `int(..., "0")`, the structured `Link` header, and the JSON
body. -/
structure HttpResponse (α : Type) where
  status : Nat
  rateRemaining : Option String
  rateReset : Int
  link : List LinkPart
  body : Body α
deriving DecidableEq, Repr

/-- A response is the rate-limit case iff status is 403 and
`X-RateLimit-Remaining` is the string `0` (line 97). -/
def isRateLimited {α : Type} (r : HttpResponse α) : Bool :=
  r.status = 403 && r.rateRemaining = some "0"

/-- Predicate for `raise_for_status`: it raises exactly for statuses in `[400, 600)`. -/
def isHttpError {α : Type} (r : HttpResponse α) : Bool :=
  400 ≤ r.status && r.status < 600

/-- Observable events of a `paginate` run: an HTTP GET with its URL and the
params passed to `session.get`, or a `time.sleep` of a number of seconds. -/
inductive TraceEv
  | get (url : String) (params : Option Params)
  | sleep (seconds : Int)
deriving DecidableEq, Repr

/-- How a fuelled run of the `while` loop ended. -/
inductive PagOutcome (α : Type)
  | ok
  | httpError (status : Nat)
  | fuelOut
deriving DecidableEq, Repr

/-- Result of a fuelled `paginate` run: the items yielded, the trace of
HTTP requests and sleeps, and the outcome. -/
structure PagResult (α : Type) where
  items : List α
  trace : List TraceEv
  outcome : PagOutcome α
deriving DecidableEq, Repr

/-- The loop body of `paginate` (lines 95-124).  `i` numbers the HTTP
requests made so far in this run (indexing both oracles), `url`/`params`
are the loop variables.  On a rate-limited response the code sleeps
`max(1, reset - now)` seconds and retries with `url` and `params`
unchanged (the `continue` on line 102 precedes the `params = None` reset
on line 124); any other error status raises; otherwise the items of the body
are yielded and the loop continues at the `rel="next"` URL with no params,
stopping when there is none. -/
def paginateGo {α : Type} (oracle : Nat → HttpResponse α) (now : Nat → Int) :
    Nat → Nat → String → Option Params → PagResult α
  | 0, _, _, _ => ⟨[], [], PagOutcome.fuelOut⟩
  | fuel + 1, i, url, params =>
    let r := oracle i
    if isRateLimited r then
      let wait := max 1 (r.rateReset - now i)
      let rest := paginateGo oracle now fuel (i + 1) url params
      ⟨rest.items, TraceEv.get url params :: TraceEv.sleep wait :: rest.trace,
        rest.outcome⟩
    else if isHttpError r then
      ⟨[], [TraceEv.get url params], PagOutcome.httpError r.status⟩
    else
      match nextUrl r.link with
      | Option.none => ⟨r.body.yielded, [TraceEv.get url params], PagOutcome.ok⟩
      | some u =>
        let rest := paginateGo oracle now fuel (i + 1) u Option.none
        ⟨r.body.yielded ++ rest.items, TraceEv.get url params :: rest.trace,
          rest.outcome⟩

/-- Entry point `paginate(session, url, params)`: the first request carries the params
with the `per_page` default applied. -/
def paginate {α : Type} (oracle : Nat → HttpResponse α) (now : Nat → Int)
    (fuel : Nat) (url : String) (params : Option Params) : PagResult α :=
  paginateGo oracle now fuel 0 url (some (withPerPageDefault params))

/-- An oracle that replays a fixed finite script of responses, answering
`d` past its end. -/
def scriptOracle {α : Type} (rs : List (HttpResponse α)) (d : HttpResponse α)
    (i : Nat) : HttpResponse α :=
  rs.getD i d

/-- Number of sleep-retry cycles in a trace. -/
def sleepCount (tr : List TraceEv) : Nat :=
  (tr.filter fun ev =>
    match ev with
    | TraceEv.sleep _ => true
    | _ => false).length

/-- Number of HTTP requests in a trace. -/
def getCount (tr : List TraceEv) : Nat :=
  (tr.filter fun ev =>
    match ev with
    | TraceEv.get _ _ => true
    | _ => false).length

/-! ## Configuration (`load_configuration`, lines 22-76)

The process environment, file system and `gh` CLI are modelled by an `Env`
record.  `str.strip()` becomes `pyStrip` and `str.lower()` becomes
`pyLower`.  `raise SystemExit msg` becomes `Except.error msg`
(`SystemExit` derives from `BaseException`, so the top-level
`except Exception` handler does not catch it).  The single quotes inside
the original MODE/TRACK_BY messages are omitted from the embedded
strings. -/

/-- The parts of the outside world `load_configuration` consults.  An env
var that is unset is `Option.none`.  `readFile f` is the contents of file
`f`, or `Option.none` when opening raises `FileNotFoundError`.  `ghWhich`
is whether `shutil.which("gh")` finds the CLI, and `ghAuthToken` is
`some t` when `gh auth token` exits with code 0 and a stripped stdout `t`
that is non-empty. -/
structure Env where
  GH_TOKEN : Option String
  GH_TOKEN_FILE : Option String
  GH_OWNER : Option String
  GH_REPO : Option String
  GOOGLE_SHEETS_ID : Option String
  GOOGLE_SERVICE_ACCOUNT_FILE : Option String
  SHEET_NAME : Option String
  MODE : Option String
  TRACK_BY : Option String
  TRACKER_SHEET_NAME : Option String
  readFile : String → Option String
  ghWhich : Bool
  ghAuthToken : Option String

/-- The validated configuration dictionary. -/
structure Config where
  token : String
  owner : String
  repo : String
  sheetsId : String
  serviceAccountFile : String
  sheetName : String
  mode : String
  trackBy : String
  trackerSheetName : String
deriving DecidableEq, Repr

/-- Python `str.strip()`: drop leading and trailing whitespace.  Defined
by structural recursion over the character list so that concrete
environments evaluate. -/
def pyStrip (s : String) : String :=
  ⟨(((s.data.dropWhile Char.isWhitespace).reverse).dropWhile
      Char.isWhitespace).reverse⟩

/-- Python `str.lower()`. -/
def pyLower (s : String) : String :=
  ⟨s.data.map Char.toLower⟩

/-- Python `a or b` on strings: `b` when `a` is falsy (empty). -/
def pyOr (a b : String) : String :=
  if a = "" then b else a

/-- Token resolution (lines 25-45): prefer `GH_TOKEN`, then the contents of
`GH_TOKEN_FILE` (aborting when the file does not exist), then the `gh`
CLI. -/
def resolveToken (env : Env) : Except String String :=
  let t0 := pyStrip (env.GH_TOKEN.getD "")
  let afterFile : Except String String :=
    if t0 = "" then
      let tokenFile := pyStrip (env.GH_TOKEN_FILE.getD "")
      if tokenFile = "" then Except.ok t0
      else
        match env.readFile tokenFile with
        | some c => Except.ok (pyStrip c)
        | Option.none => Except.error ("GH_TOKEN_FILE not found: " ++ tokenFile)
    else Except.ok t0
  match afterFile with
  | Except.error e => Except.error e
  | Except.ok t1 =>
    if t1 = "" && env.ghWhich then
      Except.ok (env.ghAuthToken.getD t1)
    else Except.ok t1

/-- Model of `(os.getenv("MODE", "rows") or "rows").strip().lower()` (line 47). -/
def normalizedMode (env : Env) : String :=
  pyLower (pyStrip (pyOr (env.MODE.getD "rows") "rows"))

/-- Model of `(os.getenv("TRACK_BY", "creator") or "creator").strip().lower()`
(line 48). -/
def normalizedTrackBy (env : Env) : String :=
  pyLower (pyStrip (pyOr (env.TRACK_BY.getD "creator") "creator"))

/-- The `missing` list of lines 61-69: the required keys whose config value
is falsy, in `required_keys` order, with the token entry appended last. -/
def requiredMissing (env : Env) (token : String) : List String :=
  (if env.GH_OWNER.getD "" = "" then ["GH_OWNER"] else []) ++
  (if env.GH_REPO.getD "" = "" then ["GH_REPO"] else []) ++
  (if env.GOOGLE_SHEETS_ID.getD "" = "" then ["GOOGLE_SHEETS_ID"] else []) ++
  (if env.GOOGLE_SERVICE_ACCOUNT_FILE.getD "service_account.json" = ""
    then ["GOOGLE_SERVICE_ACCOUNT_FILE"] else []) ++
  (if token = "" then ["GH_TOKEN (or GH_TOKEN_FILE or gh auth login)"] else [])

/-- Function `load_configuration` (lines 22-76): builds the config dictionary,
collects the missing required keys, and validates `MODE` and `TRACK_BY`. -/
def load_configuration (env : Env) : Except String Config :=
  match resolveToken env with
  | Except.error e => Except.error e
  | Except.ok token =>
    if requiredMissing env token ≠ [] then
      Except.error ("Missing configuration: " ++
        String.intercalate ", " (requiredMissing env token))
    else if ¬(normalizedMode env = "rows" ∨ normalizedMode env = "tracker") then
      Except.error "MODE must be either rows or tracker"
    else if ¬(normalizedTrackBy env = "creator" ∨
        normalizedTrackBy env = "requester") then
      Except.error "TRACK_BY must be either creator or requester"
    else
      Except.ok
        ⟨token, env.GH_OWNER.getD "", env.GH_REPO.getD "",
          env.GOOGLE_SHEETS_ID.getD "",
          env.GOOGLE_SERVICE_ACCOUNT_FILE.getD "service_account.json",
          env.SHEET_NAME.getD "Sheet1", normalizedMode env,
          normalizedTrackBy env, env.TRACKER_SHEET_NAME.getD "Tracker"⟩

/-! ## Tracker counts (`compute_tracker_counts`, lines 269-286)

A Python dict with `counts[account] = counts.get(account, 0) + 1` is an
insertion-ordered association list; `bump` updates an existing key in
place or appends a fresh one with count 1. -/

def bump : List (String × Nat) → String → List (String × Nat)
  | [], a => [(a, 1)]
  | (k, v) :: rest, a =>
    if k = a then (k, v + 1) :: rest else (k, v) :: bump rest a

/-- Model of `counts.get(a, 0)` on the association list. -/
def lookupCount (cs : List (String × Nat)) (a : String) : Nat :=
  ((cs.find? fun kv => kv.1 = a).map fun kv => kv.2).getD 0

/-- The account a PR is attributed to (lines 271-284): skip PRs with no
`review_requested` event; take the creator login, or the actor login of
the first `review_requested` event, and skip falsy accounts. -/
def trackerAccount (events : Nat → List GhEvent) (trackBy : String)
    (pr : PullRequest) : Option String :=
  match reviewRequestedEvents (events pr.number) with
  | [] => Option.none
  | e :: _ =>
    let account :=
      if trackBy = "creator" then pr.user.bind GhUser.login
      else e.actor.bind GhUser.login
    match account with
    | some s => if s = "" then Option.none else some s
    | Option.none => Option.none

/-- The loop body of `compute_tracker_counts`: skip the PR or bump its
attributed account. -/
def trackerStep (events : Nat → List GhEvent) (trackBy : String)
    (counts : List (String × Nat)) (pr : PullRequest) : List (String × Nat) :=
  match trackerAccount events trackBy pr with
  | some a => bump counts a
  | Option.none => counts

/-- Function `compute_tracker_counts` (lines 269-286). -/
def compute_tracker_counts (events : Nat → List GhEvent)
    (prs : List PullRequest) (trackBy : String) : List (String × Nat) :=
  prs.foldl (trackerStep events trackBy) []

/-- The sort order of line 318: by count descending, ties by
lower-cased account ascending (the Python key is the pair
`(-count, account.lower())`, compared lexicographically; `sorted` and
`List.mergeSort` are both stable). -/
def trackerLe (a b : String × Nat) : Bool :=
  b.2 < a.2 || (a.2 = b.2 && a.1.toLower ≤ b.1.toLower)

/-- Model of `sorted(counts.items(), key=lambda kv: (-kv[1], kv[0].lower()))`. -/
def sortedTrackerPairs (counts : List (String × Nat)) : List (String × Nat) :=
  counts.mergeSort trackerLe

/-! ## Worksheet state and the sheet helpers (lines 235-266, 315-319) -/

/-- A worksheet, as the list of its non-empty rows. -/
structure SheetState where
  rows : List (List Cell)
deriving DecidableEq, Repr

/-- Model of `ws.row_values(1)`: the first row, or `[]` for an empty sheet. -/
def rowValues1 (ws : SheetState) : List Cell :=
  ws.rows.head?.getD []

/-- Model of `ws.append_row(row)`: append after the existing rows. -/
def appendRow (ws : SheetState) (row : List Cell) : SheetState :=
  ⟨ws.rows ++ [row]⟩

/-- Function `append_rows` (lines 263-266): a no-op on an empty batch. -/
def append_rows (ws : SheetState) (rows : List (List Cell)) : SheetState :=
  if rows = [] then ws else ⟨ws.rows ++ rows⟩

/-- The canonical header row of lines 236-247. -/
def rowHeaders : List Cell :=
  [Cell.str "PR #", Cell.str "Task Title", Cell.str "Creator",
   Cell.str "Created At", Cell.str "Marked Done (Review Requested)",
   Cell.str "Reviewers", Cell.str "Updates After Done",
   Cell.str "Finalized By", Cell.str "Finalized At", Cell.str "PR URL"]

/-- The tracker header row of line 257. -/
def trackerHeaders : List Cell :=
  [Cell.str "Account", Cell.str "Count"]

/-- Function `ensure_headers` (lines 235-253): append the canonical headers when the
first row is empty; otherwise leave the sheet alone (the `elif` that
detects a differing first row deliberately does nothing). -/
def ensure_headers (ws : SheetState) : SheetState :=
  if rowValues1 ws = [] then appendRow ws rowHeaders else ws

/-- Function `ensure_tracker_headers` (lines 256-260). -/
def ensure_tracker_headers (ws : SheetState) : SheetState :=
  if rowValues1 ws = [] then appendRow ws trackerHeaders else ws

/-- Model of `ws.clear()` (line 316). -/
def clearSheet (_ws : SheetState) : SheetState :=
  ⟨[]⟩

/-! ## `main` and the top-level handler (lines 289-345)

The per-PR issue-event and commit fetches inside `summarize_pr` and
`compute_tracker_counts` are modelled by the `events`/`commits` oracles
(their pagination is not re-traced); `ghTrace` records the requests of the
initial pull-request fetch.  Connecting to the spreadsheet is assumed to
succeed; the worksheet states are part of the modelled world. -/

/-- The outside world a run of `main` interacts with. -/
structure World where
  env : Env
  prOracle : Nat → HttpResponse PullRequest
  now : Nat → Int
  fuel : Nat
  events : Nat → List GhEvent
  commits : Nat → List Commit
  sheet : SheetState
  trackerSheet : SheetState

/-- How a run of `main` ends: normally; with a `SystemExit` (not an
`Exception`, so it bypasses the top-level handler); with an `Exception`
carrying a message; or never (the pagination loop ran out of fuel). -/
inductive MainOutcome
  | completed
  | sysExit (msg : String)
  | exn (msg : String)
  | diverged
deriving DecidableEq, Repr

/-- Result of a run of `main`: its outcome, the requests and sleeps of the
pull-request fetch, and the final worksheet states. -/
structure RunResult where
  outcome : MainOutcome
  ghTrace : List TraceEv
  sheet : SheetState
  trackerSheet : SheetState

/-- The URL of line 128. -/
def pullsUrl (owner repo : String) : String :=
  "https://api.github.com/repos/" ++ owner ++ "/" ++ repo ++ "/pulls"

/-- The params of line 129 with `state="all"` from line 295. -/
def pullsParams : Params :=
  [("state", "all"), ("sort", "created"), ("direction", "desc")]

/-- The message of the `requests.exceptions.HTTPError` raised by
`raise_for_status`, abstracted to its status code. -/
def httpErrorMsg (status : Nat) : String :=
  "HTTP error " ++ toString status

/-- Function `main` (lines 289-337). -/
def mainModel (w : World) : RunResult :=
  match load_configuration w.env with
  | Except.error m => ⟨MainOutcome.sysExit m, [], w.sheet, w.trackerSheet⟩
  | Except.ok cfg =>
    let pag := paginate w.prOracle w.now w.fuel (pullsUrl cfg.owner cfg.repo)
      (some pullsParams)
    match pag.outcome with
    | PagOutcome.fuelOut => ⟨MainOutcome.diverged, pag.trace, w.sheet, w.trackerSheet⟩
    | PagOutcome.httpError s =>
      ⟨MainOutcome.exn (httpErrorMsg s), pag.trace, w.sheet, w.trackerSheet⟩
    | PagOutcome.ok =>
      let prs := pag.items
      if cfg.mode = "tracker" then
        let ws1 := ensure_tracker_headers w.trackerSheet
        let counts := compute_tracker_counts w.events prs cfg.trackBy
        let ws2 := ensure_tracker_headers (clearSheet ws1)
        let rows := (sortedTrackerPairs counts).map fun kv =>
          [Cell.str kv.1, Cell.nat kv.2]
        ⟨MainOutcome.completed, pag.trace, w.sheet, append_rows ws2 rows⟩
      else
        let ws := ensure_headers w.sheet
        let rows := prs.map (summaryRow w.events w.commits)
        ⟨MainOutcome.completed, pag.trace, append_rows ws rows, w.trackerSheet⟩

/-- What the operating system observes of the whole process. -/
structure ProcessResult where
  stderr : Option String
  exitCode : Option Nat
deriving DecidableEq, Repr

/-- The `if __name__ == "__main__"` handler (lines 340-345): an `Exception`
is printed to stderr as `Error: ...` and mapped to `sys.exit(1)`; a
`SystemExit msg` bypasses the handler and the interpreter prints the
message and exits with code 1; a run that never returns never exits. -/
def topLevel (r : MainOutcome) : ProcessResult :=
  match r with
  | MainOutcome.completed => ⟨Option.none, some 0⟩
  | MainOutcome.sysExit m => ⟨some m, some 1⟩
  | MainOutcome.exn m => ⟨some ("Error: " ++ m), some 1⟩
  | MainOutcome.diverged => ⟨Option.none, Option.none⟩

/-! ## Pagination lemmas -/

/-- The items of a response chain, in page order then item order. -/
def joinedItems {α : Type} (rs : List (HttpResponse α)) : List α :=
  (rs.map fun r => r.body.yielded).flatten

/-- The trace of GETs a run produces on a chain of non-error responses: the
first request carries the given params, each further request goes to the
`rel="next"` URL of the previous response, with no params. -/
def chainTracePre {α : Type} :
    List (HttpResponse α) → String → Option Params → List TraceEv
  | [], _, _ => []
  | r :: rest, url, ps =>
    TraceEv.get url ps :: chainTracePre rest ((nextUrl r.link).getD "") Option.none

/-- The URL the loop is at after following the chain of `rel="next"` links
of `rs`. -/
def nextChainUrl {α : Type} : List (HttpResponse α) → String → String
  | [], url => url
  | r :: rest, _ => nextChainUrl rest ((nextUrl r.link).getD "")

theorem paginateGo_succ {α : Type} (oracle : Nat → HttpResponse α)
    (now : Nat → Int) (fuel i : Nat) (url : String) (params : Option Params) :
    paginateGo oracle now (fuel + 1) i url params =
      if isRateLimited (oracle i) then
        ⟨(paginateGo oracle now fuel (i + 1) url params).items,
          TraceEv.get url params ::
            TraceEv.sleep (max 1 ((oracle i).rateReset - now i)) ::
            (paginateGo oracle now fuel (i + 1) url params).trace,
          (paginateGo oracle now fuel (i + 1) url params).outcome⟩
      else if isHttpError (oracle i) then
        ⟨[], [TraceEv.get url params], PagOutcome.httpError (oracle i).status⟩
      else
        match nextUrl (oracle i).link with
        | Option.none =>
          ⟨(oracle i).body.yielded, [TraceEv.get url params], PagOutcome.ok⟩
        | some u =>
          ⟨(oracle i).body.yielded ++ (paginateGo oracle now fuel (i + 1) u Option.none).items,
            TraceEv.get url params :: (paginateGo oracle now fuel (i + 1) u Option.none).trace,
            (paginateGo oracle now fuel (i + 1) u Option.none).outcome⟩ :=
  rfl

theorem paginateGo_step_rl {α : Type} {oracle : Nat → HttpResponse α}
    {now : Nat → Int} {fuel i : Nat} {url : String} {params : Option Params}
    (h1 : isRateLimited (oracle i) = true) :
    paginateGo oracle now (fuel + 1) i url params =
      ⟨(paginateGo oracle now fuel (i + 1) url params).items,
        TraceEv.get url params ::
          TraceEv.sleep (max 1 ((oracle i).rateReset - now i)) ::
          (paginateGo oracle now fuel (i + 1) url params).trace,
        (paginateGo oracle now fuel (i + 1) url params).outcome⟩ := by
  rw [paginateGo_succ, if_pos (by simp [h1])]

theorem paginateGo_step_err {α : Type} {oracle : Nat → HttpResponse α}
    {now : Nat → Int} {fuel i : Nat} {url : String} {params : Option Params}
    (h1 : isRateLimited (oracle i) = false) (h2 : isHttpError (oracle i) = true) :
    paginateGo oracle now (fuel + 1) i url params =
      ⟨[], [TraceEv.get url params], PagOutcome.httpError (oracle i).status⟩ := by
  rw [paginateGo_succ, if_neg (by simp [h1]), if_pos (by simp [h2])]

theorem paginateGo_step_last {α : Type} {oracle : Nat → HttpResponse α}
    {now : Nat → Int} {fuel i : Nat} {url : String} {params : Option Params}
    (h1 : isRateLimited (oracle i) = false) (h2 : isHttpError (oracle i) = false)
    (h3 : nextUrl (oracle i).link = Option.none) :
    paginateGo oracle now (fuel + 1) i url params =
      ⟨(oracle i).body.yielded, [TraceEv.get url params], PagOutcome.ok⟩ := by
  rw [paginateGo_succ, if_neg (by simp [h1]), if_neg (by simp [h2]), h3]

theorem paginateGo_step_next {α : Type} {oracle : Nat → HttpResponse α}
    {now : Nat → Int} {fuel i : Nat} {url : String} {params : Option Params}
    {u : String}
    (h1 : isRateLimited (oracle i) = false) (h2 : isHttpError (oracle i) = false)
    (h3 : nextUrl (oracle i).link = some u) :
    paginateGo oracle now (fuel + 1) i url params =
      ⟨(oracle i).body.yielded ++ (paginateGo oracle now fuel (i + 1) u Option.none).items,
        TraceEv.get url params :: (paginateGo oracle now fuel (i + 1) u Option.none).trace,
        (paginateGo oracle now fuel (i + 1) u Option.none).outcome⟩ := by
  rw [paginateGo_succ, if_neg (by simp [h1]), if_neg (by simp [h2]), h3]

/-- Running the loop across a prefix of non-rate-limited, non-error
responses that all carry a `rel="next"` link: the loop yields their items,
records one GET per response, and continues from the final next URL with
the remaining fuel and no params. -/
theorem paginateGo_prefix {α : Type} (gs : List (HttpResponse α)) :
    ∀ (oracle : Nat → HttpResponse α) (now : Nat → Int) (i : Nat)
      (url : String) (params : Option Params) (f : Nat),
      (∀ j (hj : j < gs.length), oracle (i + j) = gs.get ⟨j, hj⟩) →
      (∀ r ∈ gs, isRateLimited r = false ∧ isHttpError r = false ∧
        (nextUrl r.link).isSome = true) →
      paginateGo oracle now (gs.length + f) i url params =
        ⟨joinedItems gs ++
            (paginateGo oracle now f (i + gs.length) (nextChainUrl gs url)
              (if gs.isEmpty then params else Option.none)).items,
          chainTracePre gs url params ++
            (paginateGo oracle now f (i + gs.length) (nextChainUrl gs url)
              (if gs.isEmpty then params else Option.none)).trace,
          (paginateGo oracle now f (i + gs.length) (nextChainUrl gs url)
            (if gs.isEmpty then params else Option.none)).outcome⟩ := by
  induction gs with
  | nil =>
    intro oracle now i url params f _ _
    simp [joinedItems, chainTracePre, nextChainUrl]
  | cons r gs ih =>
    intro oracle now i url params f hmatch hok
    have hr : oracle i = r := by
      have := hmatch 0 (by simp)
      simpa using this
    obtain ⟨hrl, herr, hnext⟩ := hok r (by simp)
    obtain ⟨u, hu⟩ := Option.isSome_iff_exists.mp hnext
    have hlen : (r :: gs).length + f = (gs.length + f) + 1 := by
      simp [List.length_cons]; omega
    rw [hlen, paginateGo_step_next (by rw [hr]; exact hrl) (by rw [hr]; exact herr)
      (by rw [hr]; exact hu)]
    rw [hr]
    have ihres := ih oracle now (i + 1) u Option.none f
      (by
        intro j hj
        have := hmatch (j + 1) (by simp; omega)
        simpa [Nat.add_comm, Nat.add_assoc, Nat.add_left_comm] using this)
      (by intro r' hr'; exact hok r' (by simp [hr']))
    rw [ihres]
    have hnc : nextChainUrl (r :: gs) url = nextChainUrl gs u := by
      simp [nextChainUrl, hu]
    have hct : chainTracePre (r :: gs) url params =
        TraceEv.get url params :: chainTracePre gs u Option.none := by
      simp [chainTracePre, hu]
    have hidx : i + 1 + gs.length = i + (r :: gs).length := by
      simp [List.length_cons]; omega
    have hempty : (if (r :: gs).isEmpty then params else (Option.none : Option Params)) =
        Option.none := by simp
    have hempty2 : ∀ (ps : Option Params),
        (if gs.isEmpty then (Option.none : Option Params) else Option.none) =
          Option.none := by intro ps; split <;> rfl
    rw [hnc, hct, hempty, hempty2 params, hidx]
    simp [joinedItems]

theorem scriptOracle_get {α : Type} (rs : List (HttpResponse α))
    (d : HttpResponse α) (j : Nat) (hj : j < rs.length) :
    scriptOracle rs d j = rs.get ⟨j, hj⟩ := by
  simp [scriptOracle, List.getD_eq_getElem?_getD, List.getElem?_eq_getElem hj]

theorem chainTracePre_append {α : Type} (gs : List (HttpResponse α))
    (r : HttpResponse α) :
    ∀ url params, chainTracePre (gs ++ [r]) url params =
      chainTracePre gs url params ++
        [TraceEv.get (nextChainUrl gs url)
          (if gs.isEmpty then params else Option.none)] := by
  induction gs with
  | nil => intro url params; simp [chainTracePre, nextChainUrl]
  | cons g gs ih =>
    intro url params
    simp only [List.cons_append, chainTracePre, nextChainUrl, List.append_eq]
    rw [ih]
    simp

theorem chainTracePre_none_params {α : Type} (rs : List (HttpResponse α)) :
    ∀ url, ∀ ev ∈ chainTracePre rs url Option.none,
      ∀ u p, ev = TraceEv.get u p → p = Option.none := by
  induction rs with
  | nil => intro url ev hev; simp [chainTracePre] at hev
  | cons r rs ih =>
    intro url ev hev u p hp
    rcases List.mem_cons.mp hev with h | h
    · subst h
      cases hp
      rfl
    · exact ih _ ev h u p hp

theorem chainTracePre_tail_none_params {α : Type} (rs : List (HttpResponse α))
    (url : String) (params : Option Params) :
    ∀ ev ∈ (chainTracePre rs url params).tail,
      ∀ u p, ev = TraceEv.get u p → p = Option.none := by
  cases rs with
  | nil => intro ev hev; simp [chainTracePre] at hev
  | cons r rs =>
    intro ev hev u p hp
    simp only [chainTracePre, List.tail_cons] at hev
    exact chainTracePre_none_params rs _ ev hev u p hp

theorem getCount_chainTracePre {α : Type} (rs : List (HttpResponse α)) :
    ∀ url params, getCount (chainTracePre rs url params) = rs.length := by
  induction rs with
  | nil => intro url params; simp [chainTracePre, getCount]
  | cons r rs ih =>
    intro url params
    simp only [chainTracePre, getCount, List.filter_cons] at *
    simp [ih]

theorem sleepCount_chainTracePre {α : Type} (rs : List (HttpResponse α)) :
    ∀ url params, sleepCount (chainTracePre rs url params) = 0 := by
  induction rs with
  | nil => intro url params; simp [chainTracePre, sleepCount]
  | cons r rs ih =>
    intro url params
    simp only [chainTracePre, sleepCount, List.filter_cons] at *
    simp [ih]

/-- Claim C5: for every finite script of successful responses in which each
page but the last carries a `rel="next"` link and the last carries none,
`paginate` requests the pages sequentially, yields every item of every page
in the order received, follows each next link for the following request,
sends the query parameters (with the `per_page` default) only with the
first request, and terminates exactly with the page that has no next
link. -/
theorem paginate_follows_links {α : Type} (gs : List (HttpResponse α))
    (last d : HttpResponse α) (now : Nat → Int)
    (fuel : Nat) (url : String) (params : Option Params)
    (hok : ∀ r ∈ gs ++ [last], isRateLimited r = false ∧ isHttpError r = false)
    (hnext : ∀ r ∈ gs, (nextUrl r.link).isSome = true)
    (hlast : nextUrl last.link = Option.none)
    (hfuel : gs.length + 1 ≤ fuel) :
    paginate (scriptOracle (gs ++ [last]) d) now fuel url params =
      ⟨joinedItems (gs ++ [last]),
        chainTracePre (gs ++ [last]) url (some (withPerPageDefault params)),
        PagOutcome.ok⟩ ∧
    (chainTracePre (gs ++ [last]) url (some (withPerPageDefault params))).head? =
      some (TraceEv.get url (some (withPerPageDefault params))) ∧
    (∀ ev ∈ (chainTracePre (gs ++ [last]) url (some (withPerPageDefault params))).tail,
      ∀ u p, ev = TraceEv.get u p → p = Option.none) ∧
    getCount (chainTracePre (gs ++ [last]) url (some (withPerPageDefault params))) =
      gs.length + 1 := by
  refine ⟨?_, ?_, chainTracePre_tail_none_params _ _ _, by simp [getCount_chainTracePre]⟩
  · obtain ⟨f, rfl⟩ : ∃ f, fuel = gs.length + (f + 1) :=
      ⟨fuel - gs.length - 1, by omega⟩
    have hm : ∀ j (hj : j < gs.length),
        scriptOracle (gs ++ [last]) d (0 + j) = gs.get ⟨j, hj⟩ := by
      intro j hj
      rw [Nat.zero_add, scriptOracle_get (gs ++ [last]) d j (by simp; omega)]
      simp only [List.get_eq_getElem]
      exact List.getElem_append_left hj
    have ho : ∀ r ∈ gs, isRateLimited r = false ∧ isHttpError r = false ∧
        (nextUrl r.link).isSome = true := by
      intro r hr
      obtain ⟨h1, h2⟩ := hok r (List.mem_append_left _ hr)
      exact ⟨h1, h2, hnext r hr⟩
    rw [paginate, paginateGo_prefix gs _ now 0 url (some (withPerPageDefault params))
      (f + 1) hm ho]
    have horacle : scriptOracle (gs ++ [last]) d (0 + gs.length) = last := by
      rw [Nat.zero_add, scriptOracle_get (gs ++ [last]) d gs.length (by simp)]
      simp [List.get_eq_getElem]
    obtain ⟨hbrl, hberr⟩ := hok last (List.mem_append_right _ (by simp))
    rw [paginateGo_step_last (by rw [horacle]; exact hbrl)
      (by rw [horacle]; exact hberr) (by rw [horacle]; exact hlast), horacle]
    rw [chainTracePre_append]
    simp [joinedItems]
  · cases gs <;> simp [chainTracePre]

/-- A two-page script: the first page links to the second, the second has
no next link and an object body. -/
def pageA : HttpResponse Nat :=
  ⟨200, Option.none, 0, [⟨"https://api.example/page2", "next"⟩],
    Body.jsonList [1, 2]⟩

def pageB : HttpResponse Nat :=
  ⟨200, Option.none, 0, [], Body.jsonObj (some [3])⟩

theorem paginate_follows_links_witness :
    paginate (scriptOracle ([pageA] ++ [pageB]) pageB) (fun _ => 0) 2 "u"
        Option.none =
      ⟨joinedItems ([pageA] ++ [pageB]),
        chainTracePre ([pageA] ++ [pageB]) "u"
          (some (withPerPageDefault Option.none)),
        PagOutcome.ok⟩ :=
  (paginate_follows_links [pageA] pageB pageB (fun _ => 0) 2 "u" Option.none
    (by decide) (by decide) (by decide) (by decide)).1

theorem paginateGo_trace_get_head {α : Type} (oracle : Nat → HttpResponse α)
    (now : Nat → Int) (fuel i : Nat) (url : String) (params : Option Params)
    (h : 0 < fuel) :
    ∃ rest, (paginateGo oracle now fuel i url params).trace =
      TraceEv.get url params :: rest := by
  obtain ⟨f, rfl⟩ : ∃ f, fuel = f + 1 := ⟨fuel - 1, by omega⟩
  by_cases h1 : isRateLimited (oracle i) = true
  · rw [paginateGo_step_rl h1]
    exact ⟨_, rfl⟩
  · replace h1 : isRateLimited (oracle i) = false := by simpa using h1
    by_cases h2 : isHttpError (oracle i) = true
    · rw [paginateGo_step_err h1 h2]
      exact ⟨_, rfl⟩
    · replace h2 : isHttpError (oracle i) = false := by simpa using h2
      cases h3 : nextUrl (oracle i).link with
      | none =>
        rw [paginateGo_step_last h1 h2 h3]
        exact ⟨_, rfl⟩
      | some u =>
        rw [paginateGo_step_next h1 h2 h3]
        exact ⟨_, rfl⟩

theorem sleepCount_cons_get (u : String) (p : Option Params) (tr : List TraceEv) :
    sleepCount (TraceEv.get u p :: tr) = sleepCount tr := by
  simp [sleepCount, List.filter_cons]

theorem sleepCount_cons_sleep (s : Int) (tr : List TraceEv) :
    sleepCount (TraceEv.sleep s :: tr) = sleepCount tr + 1 := by
  simp [sleepCount, List.filter_cons]

theorem getCount_cons_get (u : String) (p : Option Params) (tr : List TraceEv) :
    getCount (TraceEv.get u p :: tr) = getCount tr + 1 := by
  simp [getCount, List.filter_cons]

theorem getCount_cons_sleep (s : Int) (tr : List TraceEv) :
    getCount (TraceEv.sleep s :: tr) = getCount tr := by
  simp [getCount, List.filter_cons]

theorem paginateGo_all_rl {α : Type} (oracle : Nat → HttpResponse α)
    (now : Nat → Int) (h : ∀ i, isRateLimited (oracle i) = true) :
    ∀ fuel i url params,
      (paginateGo oracle now fuel i url params).outcome = PagOutcome.fuelOut ∧
      sleepCount (paginateGo oracle now fuel i url params).trace = fuel := by
  intro fuel
  induction fuel with
  | zero => intro i url params; exact ⟨rfl, rfl⟩
  | succ f ih =>
    intro i url params
    rw [paginateGo_step_rl (h i)]
    obtain ⟨ho, hs⟩ := ih (i + 1) url params
    refine ⟨ho, ?_⟩
    simp only [sleepCount_cons_get, sleepCount_cons_sleep, hs]

/-- Claim C2 (amended): a 403 response whose X-RateLimit-Remaining header
is the string 0 triggers a sleep of `max(1, reset - now)` seconds followed
by a retry of the very same request (same URL, same params); but the
number of sleep-retry cycles is not bounded: as long as rate-limited
responses keep arriving the loop keeps sleeping and retrying, one cycle
per rate-limited response, without ever proceeding or failing. -/
theorem rate_limit_sleep_retry {α : Type} (oracle : Nat → HttpResponse α)
    (now : Nat → Int) (fuel : Nat) (url : String) (params : Option Params)
    (h : isRateLimited (oracle 0) = true) (hfuel : 2 ≤ fuel) :
    (∃ rest, (paginate oracle now fuel url params).trace =
      TraceEv.get url (some (withPerPageDefault params)) ::
      TraceEv.sleep (max 1 ((oracle 0).rateReset - now 0)) ::
      TraceEv.get url (some (withPerPageDefault params)) :: rest) ∧
    (∀ (oracle2 : Nat → HttpResponse α),
      (∀ i, isRateLimited (oracle2 i) = true) →
      ∀ fuel2 url2 params2,
        (paginate oracle2 now fuel2 url2 params2).outcome = PagOutcome.fuelOut ∧
        sleepCount (paginate oracle2 now fuel2 url2 params2).trace = fuel2) := by
  constructor
  · obtain ⟨f, rfl⟩ : ∃ f, fuel = (f + 1) + 1 := ⟨fuel - 2, by omega⟩
    rw [paginate, paginateGo_step_rl h]
    obtain ⟨rest, hrest⟩ := paginateGo_trace_get_head oracle now (f + 1) 1 url
      (some (withPerPageDefault params)) (by omega)
    exact ⟨rest, by rw [hrest]⟩
  · intro oracle2 hall fuel2 url2 params2
    exact paginateGo_all_rl oracle2 now hall fuel2 0 url2 _

/-- A server that always answers with a rate-limit response. -/
def alwaysRateLimited : Nat → HttpResponse Nat :=
  fun _ => ⟨403, some "0", 0, [], Body.jsonList []⟩

def timeZero : Nat → Int := fun _ => 0

/-- Claim C2 counterexample: against a server that keeps rate-limiting, the
run never proceeds and never fails, and the number of sleep-retry cycles
grows beyond every bound. -/
theorem rate_limit_cycles_unbounded :
    (∀ fuel, (paginate alwaysRateLimited timeZero fuel "u" Option.none).outcome =
      PagOutcome.fuelOut) ∧
    ¬ ∃ B : Nat, ∀ fuel,
      sleepCount (paginate alwaysRateLimited timeZero fuel "u" Option.none).trace ≤ B := by
  have hall : ∀ i, isRateLimited (alwaysRateLimited i) = true := fun _ => rfl
  have key := paginateGo_all_rl alwaysRateLimited timeZero hall
  constructor
  · intro fuel
    exact (key fuel 0 "u" _).1
  · rintro ⟨B, hB⟩
    have h1 := hB (B + 1)
    have h2 := (key (B + 1) 0 "u" (some (withPerPageDefault Option.none))).2
    rw [paginate] at h1
    omega

/-- A rate-limited first response followed by a successful final page. -/
def rlOnce : Nat → HttpResponse Nat :=
  fun i => if i = 0 then ⟨403, some "0", 5, [], Body.jsonList []⟩
    else ⟨200, Option.none, 0, [], Body.jsonList [7]⟩

theorem rate_limit_sleep_retry_witness :
    ∃ rest, (paginate rlOnce timeZero 2 "u" Option.none).trace =
      TraceEv.get "u" (some (withPerPageDefault Option.none)) ::
      TraceEv.sleep (max 1 ((rlOnce 0).rateReset - timeZero 0)) ::
      TraceEv.get "u" (some (withPerPageDefault Option.none)) :: rest :=
  (rate_limit_sleep_retry rlOnce timeZero 2 "u" Option.none (by decide)
    (by decide)).1

/-! ## Unfolding lemmas for `mainModel` -/

theorem mainModel_sysExit (w : World) (m : String)
    (h : load_configuration w.env = Except.error m) :
    mainModel w = ⟨MainOutcome.sysExit m, [], w.sheet, w.trackerSheet⟩ := by
  unfold mainModel
  rw [h]

theorem mainModel_httpError (w : World) (cfg : Config) (s : Nat)
    (hcfg : load_configuration w.env = Except.ok cfg)
    (hpag : (paginate w.prOracle w.now w.fuel (pullsUrl cfg.owner cfg.repo)
      (some pullsParams)).outcome = PagOutcome.httpError s) :
    mainModel w = ⟨MainOutcome.exn (httpErrorMsg s),
      (paginate w.prOracle w.now w.fuel (pullsUrl cfg.owner cfg.repo)
        (some pullsParams)).trace,
      w.sheet, w.trackerSheet⟩ := by
  unfold mainModel
  rw [hcfg]
  simp only [hpag]

theorem mainModel_rows (w : World) (cfg : Config)
    (hcfg : load_configuration w.env = Except.ok cfg)
    (hmode : cfg.mode ≠ "tracker")
    (hpag : (paginate w.prOracle w.now w.fuel (pullsUrl cfg.owner cfg.repo)
      (some pullsParams)).outcome = PagOutcome.ok) :
    mainModel w = ⟨MainOutcome.completed,
      (paginate w.prOracle w.now w.fuel (pullsUrl cfg.owner cfg.repo)
        (some pullsParams)).trace,
      append_rows (ensure_headers w.sheet)
        ((paginate w.prOracle w.now w.fuel (pullsUrl cfg.owner cfg.repo)
          (some pullsParams)).items.map (summaryRow w.events w.commits)),
      w.trackerSheet⟩ := by
  unfold mainModel
  rw [hcfg]
  simp only [hpag, if_neg hmode]

theorem mainModel_tracker (w : World) (cfg : Config)
    (hcfg : load_configuration w.env = Except.ok cfg)
    (hmode : cfg.mode = "tracker")
    (hpag : (paginate w.prOracle w.now w.fuel (pullsUrl cfg.owner cfg.repo)
      (some pullsParams)).outcome = PagOutcome.ok) :
    mainModel w = ⟨MainOutcome.completed,
      (paginate w.prOracle w.now w.fuel (pullsUrl cfg.owner cfg.repo)
        (some pullsParams)).trace,
      w.sheet,
      append_rows (ensure_tracker_headers (clearSheet
          (ensure_tracker_headers w.trackerSheet)))
        ((sortedTrackerPairs (compute_tracker_counts w.events
            (paginate w.prOracle w.now w.fuel (pullsUrl cfg.owner cfg.repo)
              (some pullsParams)).items cfg.trackBy)).map fun kv =>
          [Cell.str kv.1, Cell.nat kv.2])⟩ := by
  unfold mainModel
  rw [hcfg]
  simp only [hpag, if_pos hmode]

theorem getCount_append (a b : List TraceEv) :
    getCount (a ++ b) = getCount a + getCount b := by
  simp [getCount, List.filter_append]

/-- Claim C7: a non-success response other than the 403 rate-limit case
makes `raise_for_status` raise: pagination stops with that request (no
further page is requested), and through `main` and the top-level handler
the process terminates with exit code 1. -/
theorem http_error_propagates (gs : List (HttpResponse PullRequest))
    (bad d : HttpResponse PullRequest) (now : Nat → Int) (fuel : Nat)
    (hok : ∀ r ∈ gs, isRateLimited r = false ∧ isHttpError r = false ∧
      (nextUrl r.link).isSome = true)
    (hbadrl : isRateLimited bad = false) (hbad : isHttpError bad = true)
    (hfuel : gs.length + 1 ≤ fuel) :
    (∀ url params,
      paginate (scriptOracle (gs ++ [bad]) d) now fuel url params =
        ⟨joinedItems gs,
          chainTracePre gs url (some (withPerPageDefault params)) ++
            [TraceEv.get (nextChainUrl gs url)
              (if gs.isEmpty then some (withPerPageDefault params)
                else Option.none)],
          PagOutcome.httpError bad.status⟩ ∧
      getCount (paginate (scriptOracle (gs ++ [bad]) d) now fuel url
        params).trace = gs.length + 1) ∧
    (∀ (w : World) (cfg : Config),
      w.prOracle = scriptOracle (gs ++ [bad]) d → w.now = now →
      w.fuel = fuel → load_configuration w.env = Except.ok cfg →
      (mainModel w).outcome = MainOutcome.exn (httpErrorMsg bad.status) ∧
      topLevel (mainModel w).outcome =
        ⟨some ("Error: " ++ httpErrorMsg bad.status), some 1⟩) := by
  have hmain : ∀ url params,
      paginate (scriptOracle (gs ++ [bad]) d) now fuel url params =
        ⟨joinedItems gs,
          chainTracePre gs url (some (withPerPageDefault params)) ++
            [TraceEv.get (nextChainUrl gs url)
              (if gs.isEmpty then some (withPerPageDefault params)
                else Option.none)],
          PagOutcome.httpError bad.status⟩ := by
    intro url params
    obtain ⟨f, rfl⟩ : ∃ f, fuel = gs.length + (f + 1) :=
      ⟨fuel - gs.length - 1, by omega⟩
    have hm : ∀ j (hj : j < gs.length),
        scriptOracle (gs ++ [bad]) d (0 + j) = gs.get ⟨j, hj⟩ := by
      intro j hj
      rw [Nat.zero_add, scriptOracle_get (gs ++ [bad]) d j (by simp; omega)]
      simp only [List.get_eq_getElem]
      exact List.getElem_append_left hj
    rw [paginate, paginateGo_prefix gs _ now 0 url
      (some (withPerPageDefault params)) (f + 1) hm hok]
    have horacle : scriptOracle (gs ++ [bad]) d (0 + gs.length) = bad := by
      rw [Nat.zero_add, scriptOracle_get (gs ++ [bad]) d gs.length (by simp)]
      simp [List.get_eq_getElem]
    rw [paginateGo_step_err (by rw [horacle]; exact hbadrl)
      (by rw [horacle]; exact hbad), horacle]
    simp [joinedItems]
  refine ⟨fun url params => ⟨hmain url params, ?_⟩, ?_⟩
  · rw [hmain url params]
    simp only [getCount_append, getCount_chainTracePre, getCount_cons_get]
    simp [getCount]
  · intro w cfg hporacle hnow hfuel2 hcfg
    have hpag : (paginate w.prOracle w.now w.fuel (pullsUrl cfg.owner cfg.repo)
        (some pullsParams)).outcome = PagOutcome.httpError bad.status := by
      rw [hporacle, hnow, hfuel2, hmain (pullsUrl cfg.owner cfg.repo)
        (some pullsParams)]
    rw [mainModel_httpError w cfg bad.status hcfg hpag]
    exact ⟨rfl, rfl⟩

/-- An all-fields-set environment that passes configuration validation. -/
def envGood : Env :=
  ⟨some "t", Option.none, some "o", some "r", some "s", Option.none,
    Option.none, Option.none, Option.none, Option.none,
    fun _ => Option.none, false, Option.none⟩

/-- The configuration `load_configuration` produces from `envGood`. -/
def cfgGood : Config :=
  ⟨"t", "o", "r", "s", "service_account.json", "Sheet1", "rows", "creator",
    "Tracker"⟩

/-- A plain 500 response. -/
def resp500 : HttpResponse PullRequest :=
  ⟨500, Option.none, 0, [], Body.jsonList []⟩

/-- A world whose pull-request fetch is answered with a 500. -/
def worldExn : World :=
  ⟨envGood, scriptOracle ([] ++ [resp500]) resp500, timeZero, 1,
    fun _ => [], fun _ => [], ⟨[]⟩, ⟨[]⟩⟩

theorem http_error_propagates_witness :
    (mainModel worldExn).outcome = MainOutcome.exn (httpErrorMsg 500) ∧
    topLevel (mainModel worldExn).outcome =
      ⟨some ("Error: " ++ httpErrorMsg 500), some 1⟩ :=
  (http_error_propagates [] resp500 resp500 timeZero 1
    (by intro r hr; simp at hr) (by decide) (by decide) (by decide)).2
    worldExn cfgGood rfl rfl rfl rfl

/-- Claim C6: whenever `main` ends with an `Exception` carrying message
`m`, the top-level handler catches it, prints `Error: m` to stderr, and
the process exits with code 1. -/
theorem top_level_handler_maps_exceptions (w : World) (m : String)
    (h : (mainModel w).outcome = MainOutcome.exn m) :
    topLevel (mainModel w).outcome = ⟨some ("Error: " ++ m), some 1⟩ := by
  rw [h]
  rfl

theorem top_level_handler_maps_exceptions_witness :
    topLevel (mainModel worldExn).outcome =
      ⟨some ("Error: " ++ httpErrorMsg 500), some 1⟩ :=
  top_level_handler_maps_exceptions worldExn (httpErrorMsg 500) rfl

theorem append_rows_rows (ws : SheetState) (rows : List (List Cell)) :
    (append_rows ws rows).rows = ws.rows ++ rows := by
  unfold append_rows
  split
  · simp_all
  · rfl

/-- Claim C4: in rows mode a successful run appends exactly one row per
fetched pull request, in fetch order, and each row consists of the ten
fields in the fixed order: number, title, creator login, created-at,
first review_requested timestamp, reviewers, count of commits after that
event, finalizer login, finalized-at, and PR URL. -/
theorem rows_mode_one_row_per_pr (w : World) (cfg : Config)
    (hcfg : load_configuration w.env = Except.ok cfg)
    (hmode : cfg.mode = "rows")
    (hpag : (paginate w.prOracle w.now w.fuel (pullsUrl cfg.owner cfg.repo)
      (some pullsParams)).outcome = PagOutcome.ok) :
    ((mainModel w).sheet.rows =
        (ensure_headers w.sheet).rows ++
          ((paginate w.prOracle w.now w.fuel (pullsUrl cfg.owner cfg.repo)
            (some pullsParams)).items.map (summaryRow w.events w.commits)) ∧
      (mainModel w).outcome = MainOutcome.completed ∧
      (mainModel w).trackerSheet = w.trackerSheet) ∧
    ∀ (ev : Nat → List GhEvent) (cm : Nat → List Commit) (pr : PullRequest),
      summaryRow ev cm pr =
        [Cell.nat pr.number,
         optStr pr.title,
         optStr (pr.user.bind GhUser.login),
         optTime pr.created_at,
         optTime (markedDoneAt (ev pr.number)),
         reviewersCell (ev pr.number),
         Cell.nat (updatesAfterDone (ev pr.number) (cm pr.number)),
         optStr (finalizedBy pr),
         optTime (finalizedAt pr),
         optStr pr.html_url] := by
  have hm2 : cfg.mode ≠ "tracker" := by rw [hmode]; decide
  rw [mainModel_rows w cfg hcfg hm2 hpag]
  exact ⟨⟨append_rows_rows _ _, rfl, rfl⟩, fun ev cm pr => rfl⟩

/-- A concrete pull request used in witnesses. -/
def prW : PullRequest :=
  ⟨7, some "Fix the build", some ⟨some "alice"⟩, some 100, some "https://x/7",
    "closed", some 300, some 300, some ⟨some "bob"⟩⟩

/-- A single successful page holding `prW`. -/
def respOnePr : HttpResponse PullRequest :=
  ⟨200, Option.none, 0, [], Body.jsonList [prW]⟩

/-- A rows-mode world whose pull-request fetch returns one PR. -/
def worldRows : World :=
  ⟨envGood, scriptOracle ([] ++ [respOnePr]) respOnePr, timeZero, 1,
    fun _ => [], fun _ => [], ⟨[]⟩, ⟨[]⟩⟩

theorem rows_mode_one_row_per_pr_witness :
    (mainModel worldRows).sheet.rows =
      (ensure_headers (⟨[]⟩ : SheetState)).rows ++
        ((paginate worldRows.prOracle worldRows.now worldRows.fuel
          (pullsUrl cfgGood.owner cfgGood.repo)
          (some pullsParams)).items.map
            (summaryRow worldRows.events worldRows.commits)) :=
  (rows_mode_one_row_per_pr worldRows cfgGood rfl rfl rfl).1.1

/-- Claim C3: whenever a required configuration value is empty, no token
can be obtained, or MODE / TRACK_BY is invalid, `load_configuration`
raises `SystemExit` with a message, and a run of `main` in such an
environment issues no GitHub API request. -/
theorem load_configuration_aborts (env : Env)
    (h : env.GH_OWNER.getD "" = "" ∨ env.GH_REPO.getD "" = "" ∨
      env.GOOGLE_SHEETS_ID.getD "" = "" ∨
      env.GOOGLE_SERVICE_ACCOUNT_FILE.getD "service_account.json" = "" ∨
      (∀ t, resolveToken env = Except.ok t → t = "") ∨
      ¬(normalizedMode env = "rows" ∨ normalizedMode env = "tracker") ∨
      ¬(normalizedTrackBy env = "creator" ∨
        normalizedTrackBy env = "requester")) :
    (∃ msg, load_configuration env = Except.error msg) ∧
    ∀ w : World, w.env = env →
      (mainModel w).ghTrace = [] ∧
      ∃ msg, (mainModel w).outcome = MainOutcome.sysExit msg := by
  have habort : ∃ msg, load_configuration env = Except.error msg := by
    unfold load_configuration
    cases hres : resolveToken env with
    | error e => exact ⟨e, rfl⟩
    | ok t =>
      by_cases hmiss : requiredMissing env t ≠ []
      · exact ⟨"Missing configuration: " ++
          String.intercalate ", " (requiredMissing env t),
          by dsimp only; rw [if_pos hmiss]⟩
      · push_neg at hmiss
        rcases h with h | h | h | h | h | h | h
        · exact absurd hmiss (by simp [requiredMissing, h])
        · exact absurd hmiss (by simp [requiredMissing, h])
        · exact absurd hmiss (by simp [requiredMissing, h])
        · exact absurd hmiss (by simp [requiredMissing, h])
        · exact absurd hmiss (by simp [requiredMissing, h t hres])
        · exact ⟨"MODE must be either rows or tracker",
            by dsimp only; rw [if_neg (by simp [hmiss]), if_pos h]⟩
        · by_cases hmode : normalizedMode env = "rows" ∨ normalizedMode env = "tracker"
          · exact ⟨"TRACK_BY must be either creator or requester",
              by dsimp only
                 rw [if_neg (by simp [hmiss]), if_neg (not_not_intro hmode),
                   if_pos h]⟩
          · exact ⟨"MODE must be either rows or tracker",
              by dsimp only; rw [if_neg (by simp [hmiss]), if_pos hmode]⟩
  refine ⟨habort, ?_⟩
  intro w hw
  obtain ⟨msg, hmsg⟩ := habort
  rw [mainModel_sysExit w msg (by rw [hw]; exact hmsg)]
  exact ⟨rfl, msg, rfl⟩

/-- A fully unset environment. -/
def env0 : Env :=
  ⟨Option.none, Option.none, Option.none, Option.none, Option.none,
    Option.none, Option.none, Option.none, Option.none, Option.none,
    fun _ => Option.none, false, Option.none⟩

theorem load_configuration_aborts_witness :
    ∃ msg, load_configuration env0 = Except.error msg :=
  (load_configuration_aborts env0 (Or.inl rfl)).1

/-- Claim C10: `ensure_headers` never touches a worksheet whose first row
is non-empty - even one whose first row differs from the canonical header
row - and appends the canonical header row exactly when the first row is
empty. -/
theorem ensure_headers_frame (ws : SheetState) :
    (rowValues1 ws ≠ [] → ensure_headers ws = ws) ∧
    (rowValues1 ws = [] → ensure_headers ws = appendRow ws rowHeaders) := by
  constructor
  · intro h
    unfold ensure_headers
    rw [if_neg h]
  · intro h
    unfold ensure_headers
    rw [if_pos h]

theorem ensure_headers_frame_witness :
    ensure_headers ⟨[[Cell.str "custom"]]⟩ = ⟨[[Cell.str "custom"]]⟩ ∧
    ensure_headers ⟨[]⟩ = appendRow ⟨[]⟩ rowHeaders :=
  ⟨(ensure_headers_frame ⟨[[Cell.str "custom"]]⟩).1 (by decide),
   (ensure_headers_frame ⟨[]⟩).2 rfl⟩

theorem firstOccurrences_eq_nil_iff (l : List String) :
    firstOccurrences l = [] ↔ l = [] := by
  cases l with
  | nil => simp [firstOccurrences]
  | cons a l => rw [firstOccurrences]; simp

/-- Claim C8: the deduplicated reviewer list keeps exactly the first
occurrence of each requested reviewer login (or `team:`-prefixed team
slug), in first-occurrence order across the review_requested events, so
each entry appears at most once; the Reviewers cell of the exported row is
`None` exactly when no review_requested event names a reviewer or team. -/
theorem reviewers_field_first_occurrence (events : List GhEvent) :
    reviewersUnique events =
      firstOccurrences (reviewersRaw (reviewRequestedEvents events)) ∧
    (reviewersUnique events).Nodup ∧
    (reviewersCell events = Cell.none ↔
      reviewersRaw (reviewRequestedEvents events) = []) ∧
    ∀ (ev : Nat → List GhEvent) (cm : Nat → List Commit) (pr : PullRequest),
      (summaryRow ev cm pr)[5]? = some (reviewersCell (ev pr.number)) := by
  refine ⟨dedupFirst_eq_firstOccurrences _, ?_, ?_, fun ev cm pr => rfl⟩
  · rw [reviewersUnique, dedupFirst_eq_firstOccurrences]
    exact firstOccurrences_nodup _
  · unfold reviewersCell
    by_cases hu : reviewersUnique events = []
    · rw [if_pos hu]
      rw [reviewersUnique, dedupFirst_eq_firstOccurrences,
        firstOccurrences_eq_nil_iff] at hu
      simp [hu]
    · rw [if_neg hu]
      rw [reviewersUnique, dedupFirst_eq_firstOccurrences] at hu
      constructor
      · intro h
        cases h
      · intro h
        rw [h] at hu
        simp [firstOccurrences] at hu

/-! ## Tracker lemmas -/

theorem lookupCount_cons (k : String) (v : Nat) (rest : List (String × Nat))
    (b : String) :
    lookupCount ((k, v) :: rest) b = if k = b then v else lookupCount rest b := by
  by_cases h : k = b <;> simp [lookupCount, List.find?, h]

theorem lookupCount_bump (cs : List (String × Nat)) (a b : String) :
    lookupCount (bump cs a) b =
      lookupCount cs b + (if a = b then 1 else 0) := by
  induction cs with
  | nil =>
    by_cases h : a = b <;> simp [bump, lookupCount, List.find?, h]
  | cons kv rest ih =>
    rcases kv with ⟨k, v⟩
    by_cases hk : k = a
    · rw [show bump ((k, v) :: rest) a = (k, v + 1) :: rest from by
        simp [bump, hk]]
      rw [lookupCount_cons, lookupCount_cons]
      by_cases hb : k = b
      · rw [if_pos hb, if_pos hb, if_pos (hk.symm.trans hb)]
      · have hab : ¬a = b := fun h2 => hb (hk.trans h2)
        rw [if_neg hb, if_neg hb, if_neg hab]
        simp
    · rw [show bump ((k, v) :: rest) a = (k, v) :: bump rest a from by
        simp [bump, hk]]
      rw [lookupCount_cons, lookupCount_cons]
      by_cases hb : k = b
      · rw [if_pos hb, if_pos hb]
        have hab : ¬a = b := fun h2 => hk (hb.trans h2.symm)
        rw [if_neg hab]
        simp
      · rw [if_neg hb, if_neg hb, ih]

theorem mem_keys_bump (cs : List (String × Nat)) (a b : String) :
    b ∈ (bump cs a).map Prod.fst ↔ b ∈ cs.map Prod.fst ∨ b = a := by
  induction cs with
  | nil => simp [bump]
  | cons kv rest ih =>
    rcases kv with ⟨k, v⟩
    by_cases hk : k = a
    · subst hk
      simp [bump]
      tauto
    · simp [bump, if_neg hk, ih]
      tauto

theorem bump_values_pos (cs : List (String × Nat)) (a : String)
    (h : ∀ kv ∈ cs, 1 ≤ kv.2) : ∀ kv ∈ bump cs a, 1 ≤ kv.2 := by
  induction cs with
  | nil =>
    intro kv hkv
    simp [bump] at hkv
    simp [hkv]
  | cons hd rest ih =>
    rcases hd with ⟨k, v⟩
    intro kv hkv
    by_cases hk : k = a
    · subst hk
      simp only [bump, if_pos rfl] at hkv
      rcases List.mem_cons.mp hkv with hh | hh
      · subst hh; simp
      · exact h kv (List.mem_cons_of_mem _ hh)
    · simp only [bump, if_neg hk] at hkv
      rcases List.mem_cons.mp hkv with hh | hh
      · subst hh; exact h (k, v) (by simp)
      · exact ih (fun kv2 hkv2 => h kv2 (List.mem_cons_of_mem _ hkv2)) kv hh

theorem foldl_trackerStep_lookup (events : Nat → List GhEvent)
    (trackBy : String) (a : String) :
    ∀ (prs : List PullRequest) (acc : List (String × Nat)),
      lookupCount (List.foldl (trackerStep events trackBy) acc prs) a =
        lookupCount acc a +
          (prs.filter fun pr =>
            trackerAccount events trackBy pr = some a).length := by
  intro prs
  induction prs with
  | nil => intro acc; simp
  | cons pr prs ih =>
    intro acc
    rw [List.foldl_cons]
    cases hacct : trackerAccount events trackBy pr with
    | none =>
      rw [show trackerStep events trackBy acc pr = acc from by
        simp [trackerStep, hacct]]
      rw [ih]
      congr 1
      simp [List.filter_cons, hacct]
    | some b =>
      rw [show trackerStep events trackBy acc pr = bump acc b from by
        simp [trackerStep, hacct]]
      rw [ih, lookupCount_bump]
      by_cases hb : b = a
      · subst hb
        rw [if_pos rfl]
        simp only [List.filter_cons, hacct]
        simp
        omega
      · rw [if_neg hb]
        simp [List.filter_cons, hacct, hb]

theorem foldl_trackerStep_keys (events : Nat → List GhEvent)
    (trackBy : String) (a : String) :
    ∀ (prs : List PullRequest) (acc : List (String × Nat)),
      (a ∈ (List.foldl (trackerStep events trackBy) acc prs).map Prod.fst ↔
        a ∈ acc.map Prod.fst ∨
          ∃ pr ∈ prs, trackerAccount events trackBy pr = some a) := by
  intro prs
  induction prs with
  | nil => intro acc; simp
  | cons pr prs ih =>
    intro acc
    rw [List.foldl_cons, ih]
    unfold trackerStep
    cases hacct : trackerAccount events trackBy pr with
    | none =>
      simp only [List.mem_cons]
      constructor
      · rintro (hmem | ⟨pr2, hpr2, hacct2⟩)
        · exact Or.inl hmem
        · exact Or.inr ⟨pr2, Or.inr hpr2, hacct2⟩
      · rintro (hmem | ⟨pr2, hpr2 | hpr2, hacct2⟩)
        · exact Or.inl hmem
        · subst hpr2; rw [hacct] at hacct2; cases hacct2
        · exact Or.inr ⟨pr2, hpr2, hacct2⟩
    | some b =>
      rw [mem_keys_bump]
      constructor
      · rintro ((hmem | hab) | ⟨pr2, hpr2, hacct2⟩)
        · exact Or.inl hmem
        · exact Or.inr ⟨pr, by simp, by rw [hacct, hab]⟩
        · exact Or.inr ⟨pr2, by simp [hpr2], hacct2⟩
      · rintro (hmem | ⟨pr2, hpr2, hacct2⟩)
        · exact Or.inl (Or.inl hmem)
        · rcases List.mem_cons.mp hpr2 with hpr2 | hpr2
          · subst hpr2
            rw [hacct] at hacct2
            exact Or.inl (Or.inr (Option.some_inj.mp hacct2).symm)
          · exact Or.inr ⟨pr2, hpr2, hacct2⟩

/-- Claim C1 (amended): for every account, the tracker count equals the
number of pull requests that have at least one review_requested event and
whose attributed account - the creator login when tracking by creator,
the actor login of the first review_requested event when tracking by
requester, skipping empty accounts - is that account; accounts with no
such pull request do not appear in the counts. -/
theorem tracker_counts_per_pr (events : Nat → List GhEvent)
    (prs : List PullRequest) (trackBy : String) (a : String) :
    lookupCount (compute_tracker_counts events prs trackBy) a =
      (prs.filter fun pr =>
        trackerAccount events trackBy pr = some a).length ∧
    (a ∈ (compute_tracker_counts events prs trackBy).map Prod.fst ↔
      ∃ pr ∈ prs, trackerAccount events trackBy pr = some a) := by
  constructor
  · rw [compute_tracker_counts, foldl_trackerStep_lookup]
    simp [lookupCount]
  · rw [compute_tracker_counts, foldl_trackerStep_keys]
    simp

/-- The reading that the specification gives of the tracker (glossary: "aggregated
per-account count of review requests"): every review_requested event of
every PR contributes one to the account it is attributed to - the creator
of the PR when tracking by creator, the actor of the event when tracking
by requester. -/
def specReviewRequestCount (events : Nat → List GhEvent)
    (prs : List PullRequest) (trackBy : String) (acct : String) : Nat :=
  (prs.map fun pr =>
    ((reviewRequestedEvents (events pr.number)).filter fun e =>
      (if trackBy = "creator" then pr.user.bind GhUser.login
        else e.actor.bind GhUser.login) = some acct).length).sum

/-- A review_requested event whose actor is alice. -/
def evReq : GhEvent :=
  ⟨"review_requested", some 10, Option.none, Option.none, some ⟨some "alice"⟩⟩

/-- A PR created by alice. -/
def prTwoReqs : PullRequest :=
  ⟨1, Option.none, some ⟨some "alice"⟩, Option.none, Option.none, "open",
    Option.none, Option.none, Option.none⟩

/-- Two review_requested events on every PR. -/
def evTwo : Nat → List GhEvent := fun _ => [evReq, evReq]

/-- Claim C1 counterexample: a single PR with two review_requested events.
The code counts 1 for alice (one per PR), while the per-review-request
aggregation of the claim gives 2. -/
theorem tracker_counts_counterexample :
    lookupCount (compute_tracker_counts evTwo [prTwoReqs] "creator") "alice" = 1 ∧
    specReviewRequestCount evTwo [prTwoReqs] "creator" "alice" = 2 ∧
    lookupCount (compute_tracker_counts evTwo [prTwoReqs] "creator") "alice" ≠
      specReviewRequestCount evTwo [prTwoReqs] "creator" "alice" := by
  decide

theorem trackerLe_trans (a b c : String × Nat)
    (hab : trackerLe a b = true) (hbc : trackerLe b c = true) :
    trackerLe a c = true := by
  simp only [trackerLe, Bool.or_eq_true, Bool.and_eq_true,
    decide_eq_true_eq] at hab hbc ⊢
  rcases hab with h1 | ⟨h1, h2⟩ <;> rcases hbc with h3 | ⟨h3, h4⟩
  · exact Or.inl (by omega)
  · exact Or.inl (by omega)
  · exact Or.inl (by omega)
  · exact Or.inr ⟨by omega, le_trans h2 h4⟩

theorem trackerLe_total (a b : String × Nat) :
    (trackerLe a b || trackerLe b a) = true := by
  simp only [trackerLe, Bool.or_eq_true, Bool.and_eq_true,
    decide_eq_true_eq]
  rcases lt_trichotomy a.2 b.2 with h | h | h
  · exact Or.inr (Or.inl h)
  · rcases le_total a.1.toLower b.1.toLower with hle | hle
    · exact Or.inl (Or.inr ⟨h, hle⟩)
    · exact Or.inr (Or.inr ⟨h.symm, hle⟩)
  · exact Or.inl (Or.inl h)

theorem compute_tracker_counts_pos (events : Nat → List GhEvent)
    (trackBy : String) :
    ∀ (prs : List PullRequest) (acc : List (String × Nat)),
      (∀ kv ∈ acc, 1 ≤ kv.2) →
      ∀ kv ∈ List.foldl (trackerStep events trackBy) acc prs, 1 ≤ kv.2 := by
  intro prs
  induction prs with
  | nil => intro acc hacc kv hkv; exact hacc kv hkv
  | cons pr prs ih =>
    intro acc hacc kv hkv
    rw [List.foldl_cons] at hkv
    cases hacct : trackerAccount events trackBy pr with
    | none =>
      rw [show trackerStep events trackBy acc pr = acc from by
        simp [trackerStep, hacct]] at hkv
      exact ih acc hacc kv hkv
    | some b =>
      rw [show trackerStep events trackBy acc pr = bump acc b from by
        simp [trackerStep, hacct]] at hkv
      exact ih (bump acc b) (bump_values_pos acc b hacc) kv hkv

/-- Claim C9: the rows written to the tracker sheet are ordered by count
descending with ties broken by case-insensitive account name ascending,
and every count produced by `compute_tracker_counts` - hence every count
written - is at least 1. -/
theorem tracker_rows_sorted_and_positive (counts : List (String × Nat))
    (events : Nat → List GhEvent) (prs : List PullRequest)
    (trackBy : String) :
    (sortedTrackerPairs counts).Pairwise
      (fun a b => b.2 < a.2 ∨ (a.2 = b.2 ∧ a.1.toLower ≤ b.1.toLower)) ∧
    ∀ kv ∈ sortedTrackerPairs (compute_tracker_counts events prs trackBy),
      1 ≤ kv.2 := by
  constructor
  · have hp := List.sorted_mergeSort
      (fun a b c => trackerLe_trans a b c)
      (fun a b => trackerLe_total a b) counts
    refine hp.imp ?_
    intro a b hab
    simpa only [trackerLe, Bool.or_eq_true, Bool.and_eq_true,
      decide_eq_true_eq] using hab
  · intro kv hkv
    rw [sortedTrackerPairs, List.mem_mergeSort] at hkv
    exact compute_tracker_counts_pos events trackBy prs []
      (by intro kv2 hkv2; cases hkv2) kv hkv

theorem tracker_rows_sorted_and_positive_witness :
    1 ≤ (("alice", 1) : String × Nat).2 :=
  (tracker_rows_sorted_and_positive [] evTwo [prTwoReqs] "creator").2
    ("alice", 1)
    (by rw [sortedTrackerPairs, List.mem_mergeSort]; decide)
